import Mathlib

/-!
Verification of the Candle G-code preprocessor core.

Shallow embedding of `src/gcodepreprocessorutils.cpp` (class
`GcodePreprocessorUtils`).

Modelling conventions:
* `double` values are modelled as exact rationals (`ℚ`) in the parsing
  layer and as real numbers (`ℝ`) in the geometry layer; floating-point
  rounding is idealized away.
* The quiet-NaN "unset" sentinel used by the source is modelled with
  `Option` (`none` = NaN): `parseCoord` returns `none` exactly where the
  source returns `std::numeric_limits<double>::quiet_NaN()`, and the
  `_isnan` guards of the source become `Option` matches.
* For the one place where NaN values flow through arithmetic
  (`convertRToCenter` on a negative discriminant) a second, NaN-tracking
  rendering `convertRToCenterD` is given in which every intermediate
  `double` is an `Option ℝ` and `sqrt` of a negative argument is `none`
  (a NaN), mirroring IEEE propagation through `+ - * /`.
-/

namespace Candle

/-! ## Numeric string parsing (model of `QString::toDouble`) -/

/-- Value of a run of decimal digit characters, most significant first. -/
def digitsVal (l : List Char) : ℕ :=
  l.foldl (fun a c => a * 10 + (c.toNat - '0'.toNat)) 0

/-- Parse a plain decimal numeral: an optional leading minus sign, an
integer digit run, and an optional fractional part after one dot; at
least one digit must be present.  Returns `none` when the string is not
such a numeral (empty, stray characters, several dots, ...). -/
def ratParse? (s : String) : Option ℚ :=
  let l := s.data
  let neg : Bool := match l with | '-' :: _ => true | _ => false
  let l₁ := match l with | '-' :: rest => rest | _ => l
  let intPart := l₁.takeWhile Char.isDigit
  let rest := l₁.dropWhile Char.isDigit
  match rest with
  | [] =>
    if intPart.isEmpty then none
    else
      some (if neg then -(digitsVal intPart : ℚ) else (digitsVal intPart : ℚ))
  | '.' :: frac =>
    if frac.all Char.isDigit ∧ ¬(intPart.isEmpty ∧ frac.isEmpty) then
      let v : ℚ := (digitsVal intPart : ℚ) + (digitsVal frac : ℚ) / 10 ^ frac.length
      some (if neg then -v else v)
    else none
  | _ => none

/-- Model of Qt's `QString::toDouble` as the source uses it (the `ok`
flag is ignored there): the numeric value of a plain decimal numeral,
and `0` when conversion fails.  Exponent forms are not exercised by any
token the source ever builds and are left out. -/
def toDouble (s : String) : ℚ :=
  (ratParse? s).getD 0

/-! ## Tokenizer: `GcodePreprocessorUtils::splitCommand` -/

/-- One left-to-right pass of the `splitCommand` loop
(`gcodepreprocessorutils.cpp:195-217`): state is the `readNumeric` flag
and the string builder `sb`; finished words are emitted in order.  The
final flush of a non-empty `sb` is the source's line 214. -/
def splitCore : List Char → Bool → List Char → List (List Char)
  | [], _, sb => if sb.length > 0 then [sb] else []
  | c :: rest, readNumeric, sb =>
    if readNumeric ∧ ¬c.isDigit ∧ c ≠ '.' then
      sb :: splitCore rest false (if c.isAlpha then [c] else [])
    else if c.isDigit ∨ c = '.' ∨ c = '-' then
      splitCore rest true (sb ++ [c])
    else if c.isAlpha then
      splitCore rest readNumeric (sb ++ [c])
    else
      splitCore rest readNumeric sb

/-- `GcodePreprocessorUtils::splitCommand`: split a command string into
words (`gcodepreprocessorutils.cpp:195-217`). -/
def splitCommand (command : String) : List String :=
  (splitCore command.data false []).map List.asString

/-! ## `GcodePreprocessorUtils::parseCoord` -/

/-- The per-token test of `parseCoord`
(`t.length() > 0 && t.at(0).toUpper().toLatin1() == address`). -/
def headMatches (address : Char) (t : String) : Bool :=
  match t.data with
  | [] => false
  | ch :: _ => ch.toUpper == address

/-- `GcodePreprocessorUtils::parseCoord`
(`gcodepreprocessorutils.cpp:221-232`): scan the argument list and
return the value of the matching token; the source's
`quiet_NaN()` fall-through is modelled as `none`. -/
def parseCoord : List String → Char → Option ℚ
  | [], _ => none
  | t :: rest, c =>
    if headMatches c.toUpper t then some (toDouble (List.asString t.data.tail))
    else parseCoord rest c

/-! ## Points and `updatePointWithCommand` -/

/-- `QVector3D`, with exact coordinates in `α`. -/
structure Point3 (α : Type) where
  x : α
  y : α
  z : α

/-- `GcodePreprocessorUtils::updatePointWithCommand(initial, x, y, z,
absoluteMode)` (`gcodepreprocessorutils.cpp:141-157`): the `_isnan`
guards become `Option` matches (`none` = NaN). -/
def updatePointWithCommand {α : Type} [Add α] (initial : Point3 α)
    (x y z : Option α) (absoluteMode : Bool) : Point3 α :=
  if absoluteMode then
    { x := match x with | some v => v | none => initial.x
      y := match y with | some v => v | none => initial.y
      z := match z with | some v => v | none => initial.z }
  else
    { x := match x with | some v => initial.x + v | none => initial.x
      y := match y with | some v => initial.y + v | none => initial.y
      z := match z with | some v => initial.z + v | none => initial.z }

/-- The `QList<QString>` overload of `updatePointWithCommand`
(`gcodepreprocessorutils.cpp:128-136`). -/
def updatePointWithCommandArgs (commandArgs : List String)
    (initial : Point3 ℚ) (absoluteMode : Bool) : Point3 ℚ :=
  updatePointWithCommand initial
    (parseCoord commandArgs 'X')
    (parseCoord commandArgs 'Y')
    (parseCoord commandArgs 'Z')
    absoluteMode

/-! ## Geometry layer (idealized reals)

`double` arithmetic is idealized as `ℝ`; `sqrt` is `Real.sqrt` (which
totalizes the negative case to `0`; the NaN-tracking rendering
`convertRToCenterD` below captures the source's actual NaN behaviour
there).  `hypot(x, y)` is `Real.sqrt (x*x + y*y)`. -/

noncomputable section

/-- Euclidean distance between two points; used to state the spec's
`distance(center, start) ≈ |R|` properties. -/
def dist3 (a b : Point3 ℝ) : ℝ :=
  Real.sqrt ((a.x - b.x) ^ 2 + (a.y - b.y) ^ 2 + (a.z - b.z) ^ 2)

/-- Lines 247-259 of `convertRToCenter`, factored out: the mutated
local `h_x2_div_d` — discriminant, `(-sqrt ...) / hypot(x, y)` quotient,
then the two sign flips (counter-clockwise, negative radius). -/
def arcH (R x y : ℝ) (clockwise : Bool) : ℝ :=
  let h_x2_div_d := 4 * R * R - x * x - y * y
  let h₁ := (-Real.sqrt h_x2_div_d) / Real.sqrt (x * x + y * y)
  let h₂ := if !clockwise then -h₁ else h₁
  if R < 0 then -h₂ else h₂

/-- `GcodePreprocessorUtils::convertRToCenter`
(`gcodepreprocessorutils.cpp:240-273`).  The `qDebug` call on a negative
discriminant only logs and does not change the returned value; the
`radius = -radius` assignment in the `R < 0` branch is dead for the
returned center.  The default-constructed `QVector3D center` leaves
`z = 0`. -/
def convertRToCenter (start end_ : Point3 ℝ) (radius : ℝ)
    (absoluteIJK clockwise : Bool) : Point3 ℝ :=
  let R := radius
  let x := end_.x - start.x
  let y := end_.y - start.y
  let h₃ := arcH R x y clockwise
  let offsetX := 0.5 * (x - y * h₃)
  let offsetY := 0.5 * (y + x * h₃)
  if !absoluteIJK then
    { x := start.x + offsetX, y := start.y + offsetY, z := 0 }
  else
    { x := offsetX, y := offsetY, z := 0 }

/-- `GcodePreprocessorUtils::updateCenterWithCommand`
(`gcodepreprocessorutils.cpp:159-171`).  An absent `R` token makes the
source call `convertRToCenter` with a NaN radius and so return a NaN
center; that case is modelled as `none`. -/
def updateCenterWithCommand (commandArgs : List String)
    (initial nextPoint : Point3 ℝ) (absoluteIJKMode clockwise : Bool) :
    Option (Point3 ℝ) :=
  let i := parseCoord commandArgs 'I'
  let j := parseCoord commandArgs 'J'
  let k := parseCoord commandArgs 'K'
  let radius := parseCoord commandArgs 'R'
  if i = none ∧ j = none ∧ k = none then
    radius.map fun R =>
      convertRToCenter initial nextPoint (R : ℝ) absoluteIJKMode clockwise
  else
    some (updatePointWithCommand initial
      (i.map fun q => (q : ℝ)) (j.map fun q => (q : ℝ))
      (k.map fun q => (q : ℝ)) absoluteIJKMode)

/-! ### NaN-tracking rendering of `convertRToCenter`

Each intermediate `double` is an `Option ℝ`; `none` is a NaN.  IEEE NaN
propagates through every arithmetic operation, and `sqrt` of a negative
argument is NaN. -/

/-- NaN-propagating addition. -/
def dAdd (a b : Option ℝ) : Option ℝ :=
  match a, b with
  | some u, some v => some (u + v)
  | _, _ => none

/-- NaN-propagating subtraction. -/
def dSub (a b : Option ℝ) : Option ℝ :=
  match a, b with
  | some u, some v => some (u - v)
  | _, _ => none

/-- NaN-propagating multiplication. -/
def dMul (a b : Option ℝ) : Option ℝ :=
  match a, b with
  | some u, some v => some (u * v)
  | _, _ => none

/-- NaN-propagating negation. -/
def dNeg (a : Option ℝ) : Option ℝ :=
  a.map fun u => -u

/-- NaN-propagating division.  Division by zero produces non-finite
IEEE values, which no claim exercises; it is modelled as undefined. -/
def dDiv (a b : Option ℝ) : Option ℝ :=
  match a, b with
  | some u, some v => if v = 0 then none else some (u / v)
  | _, _ => none

/-- `sqrt` with the IEEE rule that a negative argument yields NaN. -/
def dSqrt (a : Option ℝ) : Option ℝ :=
  match a with
  | some u => if u < 0 then none else some (Real.sqrt u)
  | none => none

/-- `GcodePreprocessorUtils::convertRToCenter`
(`gcodepreprocessorutils.cpp:240-273`) once more, now with every
intermediate `double` NaN-tracked, to state what the caller receives on
a negative discriminant.  Inputs are finite (the callers pass parsed
coordinates), so only `sqrt` introduces NaN here. -/
def convertRToCenterD (start end_ : Point3 ℝ) (radius : ℝ)
    (absoluteIJK clockwise : Bool) : Point3 (Option ℝ) :=
  let R := radius
  let x := end_.x - start.x
  let y := end_.y - start.y
  let h_x2_div_d := 4 * R * R - x * x - y * y
  let h₁ := dDiv (dNeg (dSqrt (some h_x2_div_d)))
    (some (Real.sqrt (x * x + y * y)))
  let h₂ := if !clockwise then dNeg h₁ else h₁
  let h₃ := if R < 0 then dNeg h₂ else h₂
  let offsetX := dMul (some 0.5) (dSub (some x) (dMul (some y) h₃))
  let offsetY := dMul (some 0.5) (dAdd (some y) (dMul (some x) h₃))
  if !absoluteIJK then
    { x := dAdd (some start.x) offsetX, y := dAdd (some start.y) offsetY,
      z := some 0 }
  else
    { x := offsetX, y := offsetY, z := some 0 }

/-! ### Arc angles and tessellation -/

/-- `GcodePreprocessorUtils::getAngle`
(`gcodepreprocessorutils.cpp:278-308`): quadrant-resolved angle of
`end - start`; `angle` is initialized to `0`, which the trailing branch
keeps. -/
def getAngle (start end_ : Point3 ℝ) : ℝ :=
  let deltaX := end_.x - start.x
  let deltaY := end_.y - start.y
  if deltaX ≠ 0 then
    if deltaX > 0 ∧ deltaY ≥ 0 then Real.arctan (deltaY / deltaX)
    else if deltaX < 0 ∧ deltaY ≥ 0 then
      Real.pi - |Real.arctan (deltaY / deltaX)|
    else if deltaX < 0 ∧ deltaY < 0 then
      Real.pi + |Real.arctan (deltaY / deltaX)|
    else if deltaX > 0 ∧ deltaY < 0 then
      Real.pi * 2 - |Real.arctan (deltaY / deltaX)|
    else 0
  else
    if deltaY > 0 then Real.pi / 2 else Real.pi * 3 / 2

/-- `GcodePreprocessorUtils::calculateSweep`
(`gcodepreprocessorutils.cpp:310-334`). -/
def calculateSweep (startAngle endAngle : ℝ) (isCw : Bool) : ℝ :=
  if startAngle = endAngle then Real.pi * 2
  else
    let endAngle' := if endAngle = 0 then Real.pi * 2 else endAngle
    if !isCw ∧ endAngle' < startAngle then
      (Real.pi * 2 - startAngle) + endAngle'
    else if isCw ∧ endAngle' > startAngle then
      (Real.pi * 2 - endAngle') + startAngle
    else |endAngle' - startAngle|

/-- The radius fallback of the seven-argument
`generatePointsAlongArcBDring` (`gcodepreprocessorutils.cpp:341-346`):
note the source mixes `start.x()` with `end.y()`. -/
def arcRadius7 (start end_ center : Point3 ℝ) (R : ℝ) : ℝ :=
  if R = 0 then
    Real.sqrt ((start.x - center.x) ^ 2 + (end_.y - center.y) ^ 2)
  else R

/-- The radius fallback of the eight-argument
`generatePointsAlongArcBDring` (`gcodepreprocessorutils.cpp:386-389`),
which uses `p1.x()` and `p1.y()`. -/
def arcRadius8 (p1 center : Point3 ℝ) (radius : ℝ) : ℝ :=
  if radius = 0 then
    Real.sqrt ((p1.x - center.x) ^ 2 + (p1.y - center.y) ^ 2)
  else radius

/-- The `for (int i = 1; i < numPoints; i++)` loop of the
eight-argument `generatePointsAlongArcBDring`
(`gcodepreprocessorutils.cpp:392-409`): the fuel is the number of
iterations left, `i` the loop counter, `z` the accumulated `lineEnd`
z-coordinate. -/
def arcLoop (center : Point3 ℝ) (isCw : Bool)
    (radius startAngle sweep : ℝ) (numPoints : ℤ) (zIncrement : ℝ) :
    ℕ → ℤ → ℝ → List (Point3 ℝ)
  | 0, _, _ => []
  | fuel + 1, i, z =>
    let angle₀ :=
      if isCw then startAngle - (i : ℝ) * sweep / (numPoints : ℝ)
      else startAngle + (i : ℝ) * sweep / (numPoints : ℝ)
    let angle := if angle₀ ≥ Real.pi * 2 then angle₀ - Real.pi * 2 else angle₀
    let z' := z + zIncrement
    { x := Real.cos angle * radius + center.x
      y := Real.sin angle * radius + center.y
      z := z' } ::
      arcLoop center isCw radius startAngle sweep numPoints zIncrement
        fuel (i + 1) z'

/-- Eight-argument `GcodePreprocessorUtils::generatePointsAlongArcBDring`
(`gcodepreprocessorutils.cpp:377-414`): interpolated points for
`i = 1 .. numPoints-1`, then `p2` appended verbatim. -/
def generatePointsAlongArcBDring8 (p1 p2 center : Point3 ℝ) (isCw : Bool)
    (radius startAngle sweep : ℝ) (numPoints : ℤ) : List (Point3 ℝ) :=
  let radius' := arcRadius8 p1 center radius
  let zIncrement := (p2.z - p1.z) / (numPoints : ℝ)
  arcLoop center isCw radius' startAngle sweep numPoints zIncrement
    (numPoints - 1).toNat 1 p1.z ++ [p2]

/-- Seven-argument `GcodePreprocessorUtils::generatePointsAlongArcBDring`
(`gcodepreprocessorutils.cpp:339-372`): radius fallback, sweep, the
minimum-arc-length suppression, segment count, then the expansion. -/
def generatePointsAlongArcBDring7 (start end_ center : Point3 ℝ)
    (clockwise : Bool) (R minArcLength arcSegmentLength : ℝ) :
    List (Point3 ℝ) :=
  let radius := arcRadius7 start end_ center R
  let startAngle := getAngle center start
  let endAngle := getAngle center end_
  let sweep := calculateSweep startAngle endAngle clockwise
  let arcLength := sweep * radius
  if minArcLength > 0 ∧ arcLength < minArcLength then []
  else
    let arcSegmentLength' :=
      if arcSegmentLength ≤ 0 ∧ minArcLength > 0 then
        (sweep * radius) / minArcLength
      else arcSegmentLength
    let numPoints : ℤ :=
      if arcSegmentLength' > 0 then ⌈arcLength / arcSegmentLength'⌉ else 20
    generatePointsAlongArcBDring8 start end_ center clockwise radius
      startAngle sweep numPoints

end

/-! ## Helper lemmas -/

/-- `parseCoord` yields the value of the first token whose head letter
matches, skipping any earlier non-matching tokens. -/
theorem parseCoord_append_first (l₁ l₂ : List String) (t : String) (c : Char)
    (h₁ : ∀ u ∈ l₁, headMatches c.toUpper u = false)
    (h₂ : headMatches c.toUpper t = true) :
    parseCoord (l₁ ++ t :: l₂) c = some (toDouble (List.asString t.data.tail)) := by
  induction l₁ with
  | nil => simp [parseCoord, h₂]
  | cons u us ih =>
    have hu := h₁ u (List.mem_cons_self u us)
    simp only [List.cons_append, parseCoord, hu, Bool.false_eq_true, if_false]
    exact ih fun v hv => h₁ v (List.mem_cons_of_mem _ hv)

/-- Stringifying a word keeps its characters. -/
theorem asString_data (l : List Char) : (List.asString l).data = l := rfl

/-- The letters of the input survive tokenization, in order: `splitCore`
never drops or reorders a letter, whatever state it is in. -/
theorem splitCore_letters (cs : List Char) : ∀ (rn : Bool) (sb : List Char),
    ((splitCore cs rn sb).flatten).filter Char.isAlpha =
      (sb ++ cs).filter Char.isAlpha := by
  induction cs with
  | nil =>
    intro rn sb
    rw [splitCore]
    by_cases h : sb.length > 0
    · rw [if_pos h]; simp
    · rw [if_neg h]
      have hsb : sb = [] := by
        rw [← List.length_eq_zero]; omega
      simp [hsb]
  | cons c rest ih =>
    intro rn sb
    rw [splitCore]
    split_ifs with h₁ h₂ h₃ h₄
    · rw [List.flatten_cons, List.filter_append, ih false [c]]
      simp [List.filter_append, List.filter_cons, h₂]
    · rw [List.flatten_cons, List.filter_append, ih false []]
      simp [List.filter_append, List.filter_cons, h₂]
    · rw [ih true (sb ++ [c])]
      simp [List.append_assoc]
    · rw [ih rn (sb ++ [c])]
      simp [List.append_assoc]
    · rw [ih rn sb]
      have hc : c.isAlpha = false := by
        simpa using h₄
      simp [List.filter_append, List.filter_cons, hc]

/-- Joining the stringified words of a word list flattens it. -/
theorem join_map_asString_data (L : List (List Char)) (acc : String) :
    ((L.map List.asString).foldl (fun r s => r ++ s) acc).data =
      acc.data ++ L.flatten := by
  induction L generalizing acc with
  | nil => simp
  | cons a as ih =>
    simp [ih, String.data_append, asString_data, List.append_assoc]

/-- Whatever the two sign flips do, the square of `arcH` is the
discriminant over the squared chord length. -/
theorem arcH_sq (R x y : ℝ) (cw : Bool)
    (hhsq : 0 ≤ 4 * R * R - x * x - y * y) (hd2 : 0 < x * x + y * y) :
    arcH R x y cw ^ 2 = (4 * R * R - x * x - y * y) / (x * x + y * y) := by
  have hb : ((-Real.sqrt (4 * R * R - x * x - y * y)) /
      Real.sqrt (x * x + y * y)) ^ 2 =
      (4 * R * R - x * x - y * y) / (x * x + y * y) := by
    rw [div_pow, neg_sq, Real.sq_sqrt hhsq, Real.sq_sqrt hd2.le]
  unfold arcH
  split_ifs <;> simpa [neg_sq] using hb

/-- Norm of the half-offset vector `(x - yH, y + xH)/2`, and of its
translate by the chord, when `H² = (4R² - d²)/d²`. -/
theorem offset_norm (x y R H : ℝ) (hd2 : 0 < x * x + y * y)
    (hH2 : H ^ 2 = (4 * R * R - x * x - y * y) / (x * x + y * y)) :
    (0.5 * (x - y * H)) ^ 2 + (0.5 * (y + x * H)) ^ 2 = R * R ∧
    (0.5 * (x - y * H) - x) ^ 2 + (0.5 * (y + x * H) - y) ^ 2 = R * R := by
  have hmain : (x * x + y * y) * H ^ 2 = 4 * R * R - x * x - y * y := by
    rw [hH2, mul_comm, div_mul_cancel₀ _ (ne_of_gt hd2)]
  constructor
  · linear_combination (1 / 4 : ℝ) * hmain
  · linear_combination (1 / 4 : ℝ) * hmain

/-- The center returned for the incremental IJK flag is at squared
distance `R²` in the XY plane from both the start and the end point
(and its Z is `0`), for every valid radius-form request. -/
theorem convertRToCenter_dist_sq (s e : Point3 ℝ) (R : ℝ) (cw : Bool)
    (hchord : ¬(e.x - s.x = 0 ∧ e.y - s.y = 0))
    (hrad : (e.x - s.x) * (e.x - s.x) + (e.y - s.y) * (e.y - s.y) ≤
      4 * R * R) :
    ((convertRToCenter s e R false cw).x - s.x) ^ 2 +
      ((convertRToCenter s e R false cw).y - s.y) ^ 2 = R * R ∧
    ((convertRToCenter s e R false cw).x - e.x) ^ 2 +
      ((convertRToCenter s e R false cw).y - e.y) ^ 2 = R * R ∧
    (convertRToCenter s e R false cw).z = 0 := by
  have hd2 : 0 < (e.x - s.x) * (e.x - s.x) + (e.y - s.y) * (e.y - s.y) := by
    rcases not_and_or.mp hchord with h | h
    · nlinarith [mul_self_pos.mpr h, mul_self_nonneg (e.y - s.y)]
    · nlinarith [mul_self_pos.mpr h, mul_self_nonneg (e.x - s.x)]
  have hhsq : 0 ≤ 4 * R * R - (e.x - s.x) * (e.x - s.x) -
      (e.y - s.y) * (e.y - s.y) := by linarith
  have hH2 := arcH_sq R (e.x - s.x) (e.y - s.y) cw hhsq hd2
  have honrm := offset_norm (e.x - s.x) (e.y - s.y) R
    (arcH R (e.x - s.x) (e.y - s.y) cw) hd2 hH2
  refine ⟨?_, ?_, ?_⟩
  · simp only [convertRToCenter, Bool.not_false, if_true]
    linear_combination honrm.1
  · simp only [convertRToCenter, Bool.not_false, if_true]
    linear_combination honrm.2
  · simp [convertRToCenter]

/-- Length of the tessellation loop is its fuel. -/
theorem arcLoop_length (center : Point3 ℝ) (isCw : Bool)
    (radius startAngle sweep : ℝ) (numPoints : ℤ) (zInc : ℝ) :
    ∀ (fuel : ℕ) (i : ℤ) (z : ℝ),
      (arcLoop center isCw radius startAngle sweep numPoints zInc
        fuel i z).length = fuel := by
  intro fuel
  induction fuel with
  | zero => intro i z; rfl
  | succ m ih => intro i z; simp [arcLoop, ih]

/-- The eight-argument tessellation returns `numPoints - 1` interpolated
points plus the appended end point. -/
theorem generate8_length (p1 p2 center : Point3 ℝ) (isCw : Bool)
    (radius startAngle sweep : ℝ) (numPoints : ℤ) :
    (generatePointsAlongArcBDring8 p1 p2 center isCw radius startAngle
      sweep numPoints).length = (numPoints - 1).toNat + 1 := by
  unfold generatePointsAlongArcBDring8
  simp [arcLoop_length]

/-! ## Claims -/

/-- Claim C2 (counterexample): with the duplicate axis tokens
`["X1", "X2"]`, `parseCoord` returns the value `1` of the *first*
matching token, not the value `2` of the last one as the claim states. -/
theorem parseCoord_duplicate_first_not_last :
    parseCoord ["X1", "X2"] 'X' = some 1 ∧
      parseCoord ["X1", "X2"] 'X' ≠ some 2 := by
  decide

/-- Claim C2 (amended): for every token list containing a matching token,
`parseCoord` returns the numeric value of the *first* matching token —
the tokens before it do not match and the ones after it are never
inspected. -/
theorem parseCoord_returns_first_match (l₁ l₂ : List String) (t : String)
    (c : Char) (h₁ : ∀ u ∈ l₁, headMatches c.toUpper u = false)
    (h₂ : headMatches c.toUpper t = true) :
    parseCoord (l₁ ++ t :: l₂) c = some (toDouble (List.asString t.data.tail)) :=
  parseCoord_append_first l₁ l₂ t c h₁ h₂

/-- Claim C2 (witness): the amended statement at the concrete list
`["Y5", "X1", "X2"]`. -/
theorem parseCoord_returns_first_match_witness :
    parseCoord (["Y5"] ++ "X1" :: ["X2"]) 'X' =
      some (toDouble (List.asString "X1".data.tail)) :=
  parseCoord_returns_first_match ["Y5"] ["X2"] "X1" 'X' (by decide) (by decide)

/-- Claim C3 (counterexample): resolving the center of the command
`["R1"]` (I/J/K unset, `R = 1`) from start `(1,0,0)` to end `(3,0,0)`
with the *absolute* IJK flag returns the bare offset `(1,0,0)`, which
lies at distance `0`, not `|R| = 1`, from the start point. -/
theorem resolveCenter_absolute_flag_not_equidistant :
    updateCenterWithCommand ["R1"] ⟨1, 0, 0⟩ ⟨3, 0, 0⟩ true true =
      some ⟨1, 0, 0⟩ ∧
    dist3 ⟨1, 0, 0⟩ ⟨1, 0, 0⟩ = 0 ∧ (0 : ℝ) ≠ |((1 : ℚ) : ℝ)| := by
  refine ⟨?_, ?_, by norm_num⟩
  · norm_num [updateCenterWithCommand,
      show parseCoord ["R1"] 'I' = none from by decide,
      show parseCoord ["R1"] 'J' = none from by decide,
      show parseCoord ["R1"] 'K' = none from by decide,
      show parseCoord ["R1"] 'R' = some 1 from by decide,
      convertRToCenter, arcH, Real.sqrt_zero]
  · norm_num [dist3, Real.sqrt_zero]

/-- Claim C3 (amended): with I/J/K all unset, a present nonzero radius
`R` whose magnitude is at least half the nonzero X/Y chord, the
*incremental* IJK flag, and start and end lying in the Z = 0 plane, the
resolved center is equidistant from start and from end, at distance
exactly `|R|`.  (The absolute flag returns the offset without `start`,
and the returned center always has Z = 0, which is why the flag and
plane restrictions are needed.) -/
theorem resolveCenter_incremental_equidistant (args : List String)
    (s e : Point3 ℝ) (cw : Bool) (r : ℚ)
    (hI : parseCoord args 'I' = none) (hJ : parseCoord args 'J' = none)
    (hK : parseCoord args 'K' = none) (hR : parseCoord args 'R' = some r)
    (hz1 : s.z = 0) (hz2 : e.z = 0)
    (hchord : ¬(e.x - s.x = 0 ∧ e.y - s.y = 0))
    (hrad : (e.x - s.x) * (e.x - s.x) + (e.y - s.y) * (e.y - s.y) ≤
      4 * (r : ℝ) * (r : ℝ)) :
    ∃ c, updateCenterWithCommand args s e false cw = some c ∧
      dist3 c s = |(r : ℝ)| ∧ dist3 c e = |(r : ℝ)| := by
  refine ⟨convertRToCenter s e (r : ℝ) false cw, ?_, ?_, ?_⟩
  · simp [updateCenterWithCommand, hI, hJ, hK, hR]
  · obtain ⟨h1, _, h3⟩ :=
      convertRToCenter_dist_sq s e (r : ℝ) cw hchord hrad
    unfold dist3
    rw [h3, hz1,
      show ((convertRToCenter s e (r : ℝ) false cw).x - s.x) ^ 2 +
        ((convertRToCenter s e (r : ℝ) false cw).y - s.y) ^ 2 +
        ((0 : ℝ) - 0) ^ 2 = (r : ℝ) ^ 2 by linear_combination h1]
    exact Real.sqrt_sq_eq_abs _
  · obtain ⟨_, h2, h3⟩ :=
      convertRToCenter_dist_sq s e (r : ℝ) cw hchord hrad
    unfold dist3
    rw [h3, hz2,
      show ((convertRToCenter s e (r : ℝ) false cw).x - e.x) ^ 2 +
        ((convertRToCenter s e (r : ℝ) false cw).y - e.y) ^ 2 +
        ((0 : ℝ) - 0) ^ 2 = (r : ℝ) ^ 2 by linear_combination h2]
    exact Real.sqrt_sq_eq_abs _

/-- Claim C3 (witness): the amended statement for the command `["R1"]`
from `(0,0,0)` to `(2,0,0)`, clockwise, with the incremental flag. -/
theorem resolveCenter_incremental_equidistant_witness :
    ∃ c, updateCenterWithCommand ["R1"] ⟨0, 0, 0⟩ ⟨2, 0, 0⟩ false true =
        some c ∧
      dist3 c ⟨0, 0, 0⟩ = |((1 : ℚ) : ℝ)| ∧
      dist3 c ⟨2, 0, 0⟩ = |((1 : ℚ) : ℝ)| :=
  resolveCenter_incremental_equidistant ["R1"] ⟨0, 0, 0⟩ ⟨2, 0, 0⟩ true 1
    (by decide) (by decide) (by decide) (by decide) rfl rfl
    (by norm_num) (by norm_num)

/-- Claim C6 (counterexample): with no maximum segment length configured
(`arcSegmentLength = 0`) but a minimum arc length of `1`, the
half-circle from `(1,0,0)` to `(-1,0,0)` about the origin with `R = 1`
(arc length `π`, not suppressed) is expanded into `1` point, not the
`20` the claim promises: the source derives a segment length from
`minArcLength` and gets `ceil(arcLength / (arcLength / 1)) = 1`. -/
theorem generate7_minArc_count_not_twenty :
    (generatePointsAlongArcBDring7 ⟨1, 0, 0⟩ ⟨-1, 0, 0⟩ ⟨0, 0, 0⟩ false 1
      1 0).length = 1 ∧ (1 : ℕ) ≠ 20 := by
  refine ⟨?_, by norm_num⟩
  have hstart : getAngle ⟨0, 0, 0⟩ ⟨1, 0, 0⟩ = 0 := by
    norm_num [getAngle, Real.arctan_zero]
  have hend : getAngle ⟨0, 0, 0⟩ ⟨-1, 0, 0⟩ = Real.pi := by
    norm_num [getAngle, Real.arctan_zero]
  have hrad : arcRadius7 ⟨1, 0, 0⟩ ⟨-1, 0, 0⟩ ⟨0, 0, 0⟩ 1 = 1 := by
    norm_num [arcRadius7]
  have hsweep : calculateSweep 0 Real.pi false = Real.pi := by
    rw [calculateSweep, if_neg (ne_of_lt Real.pi_pos),
      if_neg Real.pi_ne_zero]
    rw [if_neg, if_neg]
    · rw [sub_zero, abs_of_pos Real.pi_pos]
    · simp
    · simp [not_lt.mpr Real.pi_pos.le]
  have hsup : ¬((1 : ℝ) > 0 ∧ Real.pi * 1 < 1) := by
    rintro ⟨-, hlt⟩
    nlinarith [Real.pi_gt_three]
  have hseg : (0 : ℝ) ≤ 0 ∧ (1 : ℝ) > 0 := by norm_num
  have hdiv : (Real.pi * 1) / 1 > 0 := by positivity
  have hnp : (Real.pi * 1) / ((Real.pi * 1) / 1) = 1 := by
    rw [mul_one, div_one, div_self Real.pi_ne_zero]
  simp only [generatePointsAlongArcBDring7, hstart, hend, hsweep, hrad,
    if_neg hsup, if_pos hseg, if_pos hdiv, hnp, Int.ceil_one,
    generate8_length]
  norm_num

/-- Claim C6 (amended): the element count is `20` only when *neither* a
maximum segment length *nor* a minimum arc length is configured; when a
maximum segment length is configured (whether or not a minimum arc
length is also configured, as long as the latter does not suppress the
arc) the count is `ceil(arcLength / maxSegmentLength)`
interpolated-plus-end points, with no explicit minimum-of-one clamp
(only the verbatim end point keeps the result non-empty); and when only
a minimum arc length is configured the source derives the segment
length as `arcLength / minArcLength`, making the count
`ceil(minArcLength)` instead of `20`. -/
theorem generate7_segment_count (s e c : Point3 ℝ) (cw : Bool)
    (R minA segL : ℝ) :
    (minA ≤ 0 → segL ≤ 0 →
      (generatePointsAlongArcBDring7 s e c cw R minA segL).length = 20) ∧
    (0 < segL →
      ¬(minA > 0 ∧ calculateSweep (getAngle c s) (getAngle c e) cw *
        arcRadius7 s e c R < minA) →
      (generatePointsAlongArcBDring7 s e c cw R minA segL).length =
        (⌈calculateSweep (getAngle c s) (getAngle c e) cw *
          arcRadius7 s e c R / segL⌉ - 1).toNat + 1) ∧
    (0 < minA → segL ≤ 0 →
      minA ≤ calculateSweep (getAngle c s) (getAngle c e) cw *
        arcRadius7 s e c R →
      (generatePointsAlongArcBDring7 s e c cw R minA segL).length =
        (⌈minA⌉ - 1).toNat + 1) := by
  refine ⟨fun h₁ h₂ => ?_, fun h₁ h₂ => ?_, fun h₁ h₂ h₃ => ?_⟩
  · have hsup : ¬(minA > 0 ∧ calculateSweep (getAngle c s) (getAngle c e)
        cw * arcRadius7 s e c R < minA) :=
      fun hcon => absurd hcon.1 (not_lt.mpr h₁)
    have hseg : ¬(segL ≤ 0 ∧ minA > 0) :=
      fun hcon => absurd hcon.2 (not_lt.mpr h₁)
    simp only [generatePointsAlongArcBDring7, if_neg hsup, if_neg hseg,
      if_neg (not_lt.mpr h₂), generate8_length]
    decide
  · have hseg : ¬(segL ≤ 0 ∧ minA > 0) :=
      fun hcon => absurd hcon.1 (not_le.mpr h₁)
    simp only [generatePointsAlongArcBDring7, if_neg h₂, if_neg hseg,
      if_pos h₁, generate8_length]
  · have hA : 0 < calculateSweep (getAngle c s) (getAngle c e) cw *
        arcRadius7 s e c R := lt_of_lt_of_le h₁ h₃
    have hsup : ¬(minA > 0 ∧ calculateSweep (getAngle c s) (getAngle c e)
        cw * arcRadius7 s e c R < minA) :=
      fun hcon => absurd hcon.2 (not_lt.mpr h₃)
    have hdiv : calculateSweep (getAngle c s) (getAngle c e) cw *
        arcRadius7 s e c R / minA > 0 := div_pos hA h₁
    have hq : calculateSweep (getAngle c s) (getAngle c e) cw *
        arcRadius7 s e c R / (calculateSweep (getAngle c s)
          (getAngle c e) cw * arcRadius7 s e c R / minA) = minA := by
      rw [div_div_eq_mul_div, mul_comm, mul_div_assoc,
        div_self (ne_of_gt hA), mul_one]
    simp only [generatePointsAlongArcBDring7, if_neg hsup,
      if_pos (And.intro h₂ h₁), if_pos hdiv, hq, generate8_length]

/-- Claim C6 (witness): with neither tolerance configured
(`minArcLength = 0`, `arcSegmentLength = 0`), the half-circle from
`(1,0,0)` to `(-1,0,0)` about the origin expands into exactly `20`
points; and with both tolerances configured (`minArcLength = 1`,
`arcSegmentLength = 1`, arc length `π ≥ 1` so not suppressed) the count
is `ceil(arcLength / arcSegmentLength)` points. -/
theorem generate7_segment_count_witness :
    (generatePointsAlongArcBDring7 ⟨1, 0, 0⟩ ⟨-1, 0, 0⟩ ⟨0, 0, 0⟩ false 1
      0 0).length = 20 ∧
    (generatePointsAlongArcBDring7 ⟨1, 0, 0⟩ ⟨-1, 0, 0⟩ ⟨0, 0, 0⟩ false 1
      1 1).length =
      (⌈calculateSweep (getAngle ⟨0, 0, 0⟩ ⟨1, 0, 0⟩)
          (getAngle ⟨0, 0, 0⟩ ⟨-1, 0, 0⟩) false *
        arcRadius7 ⟨1, 0, 0⟩ ⟨-1, 0, 0⟩ ⟨0, 0, 0⟩ 1 / 1⌉ - 1).toNat + 1 := by
  constructor
  · exact (generate7_segment_count ⟨1, 0, 0⟩ ⟨-1, 0, 0⟩ ⟨0, 0, 0⟩ false 1
      0 0).1 le_rfl le_rfl
  · refine (generate7_segment_count ⟨1, 0, 0⟩ ⟨-1, 0, 0⟩ ⟨0, 0, 0⟩ false 1
      1 1).2.1 one_pos ?_
    rintro ⟨-, hlt⟩
    have hstart : getAngle (⟨0, 0, 0⟩ : Point3 ℝ) ⟨1, 0, 0⟩ = 0 := by
      norm_num [getAngle, Real.arctan_zero]
    have hend : getAngle (⟨0, 0, 0⟩ : Point3 ℝ) ⟨-1, 0, 0⟩ = Real.pi := by
      norm_num [getAngle, Real.arctan_zero]
    have hrad : arcRadius7 ⟨1, 0, 0⟩ ⟨-1, 0, 0⟩ (⟨0, 0, 0⟩ : Point3 ℝ) 1
        = 1 := by
      norm_num [arcRadius7]
    have hsweep : calculateSweep 0 Real.pi false = Real.pi := by
      rw [calculateSweep, if_neg (ne_of_lt Real.pi_pos),
        if_neg Real.pi_ne_zero]
      rw [if_neg, if_neg]
      · rw [sub_zero, abs_of_pos Real.pi_pos]
      · simp
      · simp [not_lt.mpr Real.pi_pos.le]
    rw [hstart, hend, hsweep, hrad, mul_one] at hlt
    nlinarith [Real.pi_gt_three]

/-- Claim C8 (counterexample): the input `"XY"`, two letters with no
digits, tokenizes as the single merged token `"XY"`; the letter `X` does
not become a one-character token of its own as the claim states. -/
theorem splitCommand_merges_letters :
    splitCommand "XY" = ["XY"] ∧ ("X" : String) ∉ splitCommand "XY" := by
  decide

/-- Claim C8 (amended): the tokenizer never fails and never rejects a
letter — every letter of the input, whether or not digits follow it,
appears in the token sequence, in order — but a letter not followed by
digits may be merged with neighbouring letters into one multi-letter
token instead of forming a one-character token. -/
theorem splitCommand_letters_preserved (s : String) :
    (String.join (splitCommand s)).data.filter Char.isAlpha =
      s.data.filter Char.isAlpha := by
  unfold splitCommand String.join
  rw [join_map_asString_data]
  simp only [List.nil_append, String.data]
  rw [splitCore_letters]
  rfl

/-- Claim C9: for each of the axes X, Y and Z, when the token list has no
matching token (`parseCoord` returns the unset sentinel), the point
produced by `updatePointWithCommand` keeps the prior point's value on
that axis, in absolute and in relative mode alike. -/
theorem updatePoint_absent_axis_unchanged (commandArgs : List String)
    (initial : Point3 ℚ) (absoluteMode : Bool) :
    (parseCoord commandArgs 'X' = none →
      (updatePointWithCommandArgs commandArgs initial absoluteMode).x = initial.x) ∧
    (parseCoord commandArgs 'Y' = none →
      (updatePointWithCommandArgs commandArgs initial absoluteMode).y = initial.y) ∧
    (parseCoord commandArgs 'Z' = none →
      (updatePointWithCommandArgs commandArgs initial absoluteMode).z = initial.z) := by
  unfold updatePointWithCommandArgs updatePointWithCommand
  refine ⟨fun hx => ?_, fun hy => ?_, fun hz => ?_⟩ <;>
    cases absoluteMode <;> simp_all

/-- Claim C9 (witness): the command `["F100"]` addresses none of X, Y, Z,
so the prior point `(1, 2, 3)` is returned unchanged on every axis. -/
theorem updatePoint_absent_axis_unchanged_witness :
    (updatePointWithCommandArgs ["F100"] ⟨1, 2, 3⟩ true).x = 1 ∧
    (updatePointWithCommandArgs ["F100"] ⟨1, 2, 3⟩ true).y = 2 ∧
    (updatePointWithCommandArgs ["F100"] ⟨1, 2, 3⟩ true).z = 3 := by
  have h := updatePoint_absent_axis_unchanged ["F100"] ⟨1, 2, 3⟩ true
  exact ⟨h.1 (by decide), h.2.1 (by decide), h.2.2 (by decide)⟩

/-- Claim C10: a matching token whose value part is empty or not a numeral
(e.g. the bare token `"X"`) makes `parseCoord` return `0`, not the unset
sentinel — `QString::toDouble` yields `0.0` on failure and the source
ignores the `ok` flag — and so `updatePointWithCommand` in absolute mode
sets that axis to `0` instead of leaving it unchanged. -/
theorem parseCoord_unparsable_value_zero (l₁ l₂ : List String) (t : String)
    (initial : Point3 ℚ)
    (h₁ : ∀ u ∈ l₁, headMatches 'X'.toUpper u = false)
    (h₂ : headMatches 'X'.toUpper t = true)
    (h₃ : ratParse? (List.asString t.data.tail) = none) :
    parseCoord (l₁ ++ t :: l₂) 'X' = some 0 ∧
    (updatePointWithCommandArgs (l₁ ++ t :: l₂) initial true).x = 0 := by
  have hx := parseCoord_append_first l₁ l₂ t 'X' h₁ h₂
  have htd : toDouble (List.asString t.data.tail) = 0 := by
    simp [toDouble, h₃]
  rw [htd] at hx
  refine ⟨hx, ?_⟩
  unfold updatePointWithCommandArgs updatePointWithCommand
  simp [hx]

/-- Claim C1: on a radius too small for the chord (negative discriminant
`4R² - dx² - dy²`), `convertRToCenter` does *not* report an error to the
caller: it logs and falls through, and the NaN from `sqrt` of the
negative discriminant propagates into both X and Y of the returned
center.  At start `(0,0,0)`, end `(4,0,0)`, `R = 1` the discriminant is
`-12 < 0` and the caller receives a NaN-laden center through the normal
return path. -/
theorem convertRToCenterD_negative_disc_nan :
    (4 * (1 : ℝ) * 1 - 4 * 4 - 0 * 0 < 0) ∧
    (convertRToCenterD ⟨0, 0, 0⟩ ⟨4, 0, 0⟩ 1 false true).x = none ∧
    (convertRToCenterD ⟨0, 0, 0⟩ ⟨4, 0, 0⟩ 1 false true).y = none := by
  refine ⟨by norm_num, ?_, ?_⟩ <;>
    norm_num [convertRToCenterD, dSqrt, dDiv, dNeg, dMul, dSub, dAdd]

/-- Claim C4 (counterexample): for start `(1,0,0)`, end `(3,0,0)`,
`R = 1` (offset `(1,0)`), passing the *absolute* IJK flag returns the
bare offset `(1,0,0)`, not the absolute point `(2,0,0)` the claim
promises — and the *incremental* flag is the one that returns
`start + offset`. -/
theorem convertRToCenter_flag_swapped_cex :
    convertRToCenter ⟨1, 0, 0⟩ ⟨3, 0, 0⟩ 1 true true = ⟨1, 0, 0⟩ ∧
    convertRToCenter ⟨1, 0, 0⟩ ⟨3, 0, 0⟩ 1 false true = ⟨2, 0, 0⟩ := by
  constructor <;> norm_num [convertRToCenter, arcH, Real.sqrt_zero]

/-- Claim C4 (amended): the two branches are swapped relative to the
claim: the conversion returns the absolute point `start + offset` when
the caller's IJK convention is *incremental* (`absoluteIJK = false`),
and the bare offset (with `start` left out) when the convention is
*absolute* — for every valid (non-negative discriminant) radius-form
request. -/
theorem convertRToCenter_flag_swapped (start end_ : Point3 ℝ) (R : ℝ)
    (cw : Bool)
    (h : 0 ≤ 4 * R * R - (end_.x - start.x) * (end_.x - start.x) -
      (end_.y - start.y) * (end_.y - start.y)) :
    convertRToCenter start end_ R false cw =
      ⟨start.x + (convertRToCenter start end_ R true cw).x,
       start.y + (convertRToCenter start end_ R true cw).y, 0⟩ := by
  simp [convertRToCenter]

/-- Claim C4 (witness): the amended relation at start `(1,0,0)`, end
`(3,0,0)`, `R = 1`. -/
theorem convertRToCenter_flag_swapped_witness :
    convertRToCenter ⟨1, 0, 0⟩ ⟨3, 0, 0⟩ 1 false true =
      ⟨1 + (convertRToCenter ⟨1, 0, 0⟩ ⟨3, 0, 0⟩ 1 true true).x,
       0 + (convertRToCenter ⟨1, 0, 0⟩ ⟨3, 0, 0⟩ 1 true true).y, 0⟩ :=
  convertRToCenter_flag_swapped ⟨1, 0, 0⟩ ⟨3, 0, 0⟩ 1 true (by norm_num)

/-- Claim C5: the seven-argument overload's radius fallback mixes
`start.x` with `end.y`: at start `(3,4,0)`, end `(5,0,0)`, center
`(0,0,0)` it yields `sqrt((3-0)² + (0-0)²) = 3`, while the distance
from the center to the start point is `5` — which is what the
eight-argument overload (using `p1.x`, `p1.y`) computes. -/
theorem arcRadius7_uses_end_y :
    arcRadius7 ⟨3, 4, 0⟩ ⟨5, 0, 0⟩ ⟨0, 0, 0⟩ 0 = 3 ∧
    arcRadius8 ⟨3, 4, 0⟩ ⟨0, 0, 0⟩ 0 = 5 ∧
    dist3 ⟨0, 0, 0⟩ ⟨3, 4, 0⟩ = 5 ∧ (3 : ℝ) ≠ 5 := by
  refine ⟨?_, ?_, ?_, by norm_num⟩
  · norm_num [arcRadius7]
    rw [show (9 : ℝ) = 3 ^ 2 by norm_num]
    exact Real.sqrt_sq (by norm_num)
  · norm_num [arcRadius8]
    rw [show (25 : ℝ) = 5 ^ 2 by norm_num]
    exact Real.sqrt_sq (by norm_num)
  · norm_num [dist3]
    rw [show (25 : ℝ) = 5 ^ 2 by norm_num]
    exact Real.sqrt_sq (by norm_num)

/-- Claim C7: whenever tessellation returns a non-empty sequence, its
final element is the caller-supplied end point, appended verbatim: the
eight-argument overload always ends with the literal `p2`, and the
seven-argument overload, when it does not return the empty suppression
result, ends with the literal `end` point. -/
theorem generate_last_is_end (p1 p2 center : Point3 ℝ) (isCw : Bool)
    (radius startAngle sweep : ℝ) (numPoints : ℤ)
    (start end_ center' : Point3 ℝ) (cw : Bool) (R minA segL : ℝ) :
    (generatePointsAlongArcBDring8 p1 p2 center isCw radius startAngle
      sweep numPoints).getLast? = some p2 ∧
    (generatePointsAlongArcBDring7 start end_ center' cw R minA segL ≠ [] →
      (generatePointsAlongArcBDring7 start end_ center' cw R minA
        segL).getLast? = some end_) := by
  constructor
  · unfold generatePointsAlongArcBDring8
    exact List.getLast?_concat _
  · intro h
    simp only [generatePointsAlongArcBDring7] at h ⊢
    split_ifs at h ⊢
    all_goals
      first
      | exact absurd rfl h
      | (unfold generatePointsAlongArcBDring8
         exact List.getLast?_concat _)

/-- Claim C7 (witness): a quarter arc from `(1,0,0)` to `(0,1,0)` about
the origin, with no suppression threshold, ends exactly at `(0,1,0)`;
likewise a direct eight-argument call ends at its `p2`. -/
theorem generate_last_is_end_witness :
    (generatePointsAlongArcBDring8 ⟨1, 0, 0⟩ ⟨0, 1, 0⟩ ⟨0, 0, 0⟩ false 1 0
      (Real.pi / 2) 5).getLast? = some ⟨0, 1, 0⟩ ∧
    (generatePointsAlongArcBDring7 ⟨1, 0, 0⟩ ⟨0, 1, 0⟩ ⟨0, 0, 0⟩ false 1 0
      0).getLast? = some ⟨0, 1, 0⟩ := by
  have h := generate_last_is_end ⟨1, 0, 0⟩ ⟨0, 1, 0⟩ ⟨0, 0, 0⟩ false 1 0
    (Real.pi / 2) 5 ⟨1, 0, 0⟩ ⟨0, 1, 0⟩ ⟨0, 0, 0⟩ false 1 0 0
  refine ⟨h.1, h.2 ?_⟩
  simp [generatePointsAlongArcBDring7, generatePointsAlongArcBDring8]

/-- Claim C10 (witness): the bare token `"X"` with prior point
`(5, 6, 7)` in absolute mode yields X-coordinate `0`. -/
theorem parseCoord_unparsable_value_zero_witness :
    parseCoord ([] ++ "X" :: []) 'X' = some 0 ∧
    (updatePointWithCommandArgs ([] ++ "X" :: []) ⟨5, 6, 7⟩ true).x = 0 :=
  parseCoord_unparsable_value_zero [] [] "X" ⟨5, 6, 7⟩ (by decide) (by decide)
    (by decide)

end Candle
